import Mathlib

/-!
# Verification of the Unit Circle Snake Game core

Shallow embedding of `unit_circle_snake.py`: the trigonometry model
(`base_vals`, `get_full_angle_latex`, `get_adjusted_answer`), the
question/food generator (`generate_question`, `get_random_food_position`,
`generate_foods`), the food-collision test (`food_collision`) and the
per-tick movement step of `game_loop`.

Conventions of the embedding:
* Python ints are `ℤ` (or `ℕ` for quadrant numbers, which the code only
  ever compares against 1..4); grid cells are `ℤ × ℤ`.
* The float keys `math.pi/6 … math.pi/2` of the value dictionaries are
  the four-element inductive `BaseAngle` (the floats are pairwise far
  apart, so the `abs(x - pi/2) < 1e-6` test is exactly `= piDiv2`).
* A dictionary lookup that can raise `KeyError` returns `Option`.
* `random.choice`, `random.randint`, `random.sample` and
  `random.shuffle` are nondeterministic: they are modelled either by an
  explicit choice argument (`choice`, fed a numeric oracle) or
  relationally (any value the Python call could produce).
* Latex braces are written with `\x7b`/`\x7d` escapes.
-/

namespace SnakeGame

/-- Python `SCREEN_WIDTH = 640`. -/
def SCREEN_WIDTH : ℤ := 640

/-- Python `SCREEN_HEIGHT = 480`. -/
def SCREEN_HEIGHT : ℤ := 480

/-- Python `CELL_SIZE = 20`. -/
def CELL_SIZE : ℤ := 20

/-- Python `TOP_MARGIN = 80`. -/
def TOP_MARGIN : ℤ := 80

/-- Python `GRID_WIDTH = SCREEN_WIDTH // CELL_SIZE` (= 32). -/
def GRID_WIDTH : ℤ := SCREEN_WIDTH / CELL_SIZE

/-- Python `GRID_HEIGHT = (SCREEN_HEIGHT - TOP_MARGIN) // CELL_SIZE` (= 20). -/
def GRID_HEIGHT : ℤ := (SCREEN_HEIGHT - TOP_MARGIN) / CELL_SIZE

/-- The three trig functions the game supports (the `"sin"`, `"cos"`,
`"tan"` keys of `base_vals`). -/
inductive TrigFunc where
  | sin
  | cos
  | tan
deriving DecidableEq, Repr, Fintype

/-- The Python-string name of a `TrigFunc` (used by the f-string
`f"{func}({angle_latex})"`). -/
def TrigFunc.name : TrigFunc → String
  | .sin => "sin"
  | .cos => "cos"
  | .tan => "tan"

/-- The four float dictionary keys `math.pi/6`, `math.pi/4`, `math.pi/3`,
`math.pi/2`. -/
inductive BaseAngle where
  | piDiv6
  | piDiv4
  | piDiv3
  | piDiv2
deriving DecidableEq, Repr, Fintype

/-- The `base_vals` nested dictionary; `none` is a missing key
(`KeyError`), i.e. tan at π/2. -/
def base_vals : TrigFunc → BaseAngle → Option String
  | .sin, .piDiv6 => some "\\frac\x7b1\x7d\x7b2\x7d"
  | .sin, .piDiv4 => some "\\frac\x7b\\sqrt\x7b2\x7d\x7d\x7b2\x7d"
  | .sin, .piDiv3 => some "\\frac\x7b\\sqrt\x7b3\x7d\x7d\x7b2\x7d"
  | .sin, .piDiv2 => some "1"
  | .cos, .piDiv6 => some "\\frac\x7b\\sqrt\x7b3\x7d\x7d\x7b2\x7d"
  | .cos, .piDiv4 => some "\\frac\x7b\\sqrt\x7b2\x7d\x7d\x7b2\x7d"
  | .cos, .piDiv3 => some "\\frac\x7b1\x7d\x7b2\x7d"
  | .cos, .piDiv2 => some "0"
  | .tan, .piDiv6 => some "\\frac\x7b1\x7d\x7b\\sqrt\x7b3\x7d\x7d"
  | .tan, .piDiv4 => some "1"
  | .tan, .piDiv3 => some "\\sqrt\x7b3\x7d"
  | .tan, .piDiv2 => none

/-- Python `list(base_vals[func].keys())`, in the dictionaries' insertion
order. -/
def valid_bases : TrigFunc → List BaseAngle
  | .sin => [.piDiv6, .piDiv4, .piDiv3, .piDiv2]
  | .cos => [.piDiv6, .piDiv4, .piDiv3, .piDiv2]
  | .tan => [.piDiv6, .piDiv4, .piDiv3]

/-- The `angle_fractions` dictionary: base angle → `(num, den)`. -/
def angle_fractions : BaseAngle → ℕ × ℕ
  | .piDiv6 => (1, 6)
  | .piDiv4 => (1, 4)
  | .piDiv3 => (1, 3)
  | .piDiv2 => (1, 2)

/-- Python `get_full_angle_latex(base_angle, quadrant)`.  The Python function
leaves `n` unbound (a `NameError`) when the quadrant is none of 1..4 in
the non-π/2 branch, hence the `Option`; the π/2 branch returns 3π/2 for
every quadrant outside `[1, 2]`, exactly as the source's ternary does. -/
def get_full_angle_latex (base_angle : BaseAngle) (quadrant : ℕ) : Option String :=
  if base_angle = .piDiv2 then
    some (if quadrant ∈ ([1, 2] : List ℕ) then "\\frac\x7b\\pi\x7d\x7b2\x7d"
          else "\\frac\x7b3\\pi\x7d\x7b2\x7d")
  else
    let num := (angle_fractions base_angle).1
    let den := (angle_fractions base_angle).2
    let n? : Option ℕ :=
      if quadrant = 1 then some num
      else if quadrant = 2 then some (den - num)
      else if quadrant = 3 then some (den + num)
      else if quadrant = 4 then some (2 * den - num)
      else none
    n?.map fun n =>
      "\\frac\x7b" ++ (if n ≠ 1 then toString n ++ "\\pi" else "\\pi") ++
        "\x7d\x7b" ++ toString den ++ "\x7d"

/-- Python `get_adjusted_answer(func, base_angle, quadrant)`: look the magnitude
up in `base_vals` (propagating the possible `KeyError`), return `"0"`
unsigned, otherwise prefix `"-"` in the function's negative quadrants. -/
def get_adjusted_answer (func : TrigFunc) (base_angle : BaseAngle) (quadrant : ℕ) :
    Option String :=
  (base_vals func base_angle).map fun value_str =>
    if value_str = "0" then "0"
    else
      match func with
      | .sin => (if quadrant ∈ ([3, 4] : List ℕ) then "-" else "") ++ value_str
      | .cos => (if quadrant ∈ ([2, 3] : List ℕ) then "-" else "") ++ value_str
      | .tan => (if quadrant ∈ ([2, 4] : List ℕ) then "-" else "") ++ value_str

/-- The `settings` dictionary: one flag per trig function (insertion
order sin, cos, tan) and per quadrant (insertion order 1, 2, 3, 4). -/
structure Settings where
  sinOn : Bool
  cosOn : Bool
  tanOn : Bool
  quad1 : Bool
  quad2 : Bool
  quad3 : Bool
  quad4 : Bool
deriving DecidableEq, Repr

/-- Python list `[f for f, enabled in settings["functions"].items() if enabled]`. -/
def enabledFuncs (st : Settings) : List TrigFunc :=
  (if st.sinOn then [TrigFunc.sin] else []) ++
  (if st.cosOn then [TrigFunc.cos] else []) ++
  (if st.tanOn then [TrigFunc.tan] else [])

/-- Python list `[q for q, enabled in settings["quadrants"].items() if enabled]`. -/
def enabledQuads (st : Settings) : List ℕ :=
  (if st.quad1 then [1] else []) ++
  (if st.quad2 then [2] else []) ++
  (if st.quad3 then [3] else []) ++
  (if st.quad4 then [4] else [])

/-- Python `random.choice(l)` modelled with an explicit numeric oracle `n`: any
element of `l` can be produced, and for nonempty `l` the result is
always an element of `l` (`d` is a dummy default for `l = []`, which
`random.choice` would reject with an error). -/
def choice {α : Type} (l : List α) (d : α) (n : ℕ) : α :=
  l.getD (n % l.length) d

/-- The function list `generate_question` actually draws from: the
enabled functions, or the `["sin"]` fallback when either the function
list or the quadrant list is empty. -/
def effectiveFuncs (st : Settings) : List TrigFunc :=
  if (enabledFuncs st).isEmpty || (enabledQuads st).isEmpty then [TrigFunc.sin]
  else enabledFuncs st

/-- The quadrant list `generate_question` actually draws from: the
enabled quadrants, or the `[1]` fallback when either list is empty. -/
def effectiveQuads (st : Settings) : List ℕ :=
  if (enabledFuncs st).isEmpty || (enabledQuads st).isEmpty then [1]
  else enabledQuads st

/-- Python `func = random.choice(enabled_funcs)` (oracle `cf`). -/
def chosenFunc (st : Settings) (cf : ℕ) : TrigFunc :=
  choice (effectiveFuncs st) .sin cf

/-- Python `base_angle = random.choice(valid_bases)` (oracle `cb`). -/
def chosenBase (st : Settings) (cf cb : ℕ) : BaseAngle :=
  choice (valid_bases (chosenFunc st cf)) .piDiv6 cb

/-- Python `quadrant = random.choice(enabled_quads)` (oracle `cq`). -/
def chosenQuad (st : Settings) (cq : ℕ) : ℕ :=
  choice (effectiveQuads st) 1 cq

/-- Python `generate_question(settings)` with the three `random.choice` calls
replaced by oracles `cf`, `cb`, `cq`; `none` would be an uncaught
exception from the angle/answer helpers. -/
def generate_question (st : Settings) (cf cb cq : ℕ) :
    Option (TrigFunc × String × String) :=
  let func := chosenFunc st cf
  let base_angle := chosenBase st cf cb
  let quadrant := chosenQuad st cq
  (get_full_angle_latex base_angle quadrant).bind fun angle_latex =>
    (get_adjusted_answer func base_angle quadrant).map fun correct_answer =>
      (func, func.name ++ "(" ++ angle_latex ++ ")", correct_answer)

/-- A food item: the `{"pos": pos, "value": value}` dictionary. -/
structure Food where
  pos : ℤ × ℤ
  value : String
deriving DecidableEq, Repr

/-- The margin used by `get_random_food_position`. -/
def foodMargin : ℤ := 3

/-- The acceptance test of the rejection-sampling loop in
`get_random_food_position`: the candidate `p` was drawn inside the
margins (`random.randint(margin, GRID_* - margin - 1)` is inclusive on
both ends), does not coincide with a snake cell, and is not within
independent-axis distance `< 3` on both axes of any already-placed food
of the current batch. -/
def foodPosOK (snake_positions : List (ℤ × ℤ)) (current_foods : List Food)
    (p : ℤ × ℤ) : Bool :=
  (foodMargin ≤ p.1 && p.1 ≤ GRID_WIDTH - foodMargin - 1) &&
  (foodMargin ≤ p.2 && p.2 ≤ GRID_HEIGHT - foodMargin - 1) &&
  !(snake_positions.contains p) &&
  current_foods.all fun food =>
    !((p.1 - food.pos.1).natAbs < 3 && (p.2 - food.pos.2).natAbs < 3)

/-- Python `get_random_food_position(snake_positions, current_foods)` with the
unbounded `while True` loop's successive uniform draws made explicit as
the list `draws`: the function returns the first draw the loop accepts
(`none` if every supplied draw is rejected — the Python loop would just
keep drawing). -/
def get_random_food_position (draws : List (ℤ × ℤ))
    (snake_positions : List (ℤ × ℤ)) (current_foods : List Food) :
    Option (ℤ × ℤ) :=
  draws.find? (foodPosOK snake_positions current_foods)

/-- Sequential placement validity: each food of the batch was accepted
by `foodPosOK` against the snake and the foods placed before it (the
`foods.append(...)` loop of `generate_foods`). -/
def placementOKAux (snake_positions : List (ℤ × ℤ)) :
    List Food → List Food → Bool
  | _, [] => true
  | placed, f :: rest =>
      foodPosOK snake_positions placed f.pos &&
      placementOKAux snake_positions (placed ++ [f]) rest

/-- A whole food batch is placed as `generate_foods`'s loop places it. -/
def placementOK (snake_positions : List (ℤ × ℤ)) (foods : List Food) : Bool :=
  placementOKAux snake_positions [] foods

/-- The `possible_answers` set of `generate_foods`: every signed answer
the chosen function can produce over its valid base angles × quadrants
1..4, as a finite set of strings. -/
def possible_answers (func : TrigFunc) : Finset String :=
  ((valid_bases func).flatMap fun base =>
    ([1, 2, 3, 4] : List ℕ).filterMap fun quad =>
      get_adjusted_answer func base quad).toFinset

/-- Python `generate_foods(func, correct_answer, snake_positions)`, relationally:
`foods` is a possible return value iff there is a distractor draw `ds`
(`random.sample`: distinct elements of the pool with the correct answer
removed, of size `min 3 |pool|`) and a shuffle of `ds ++ [correct]`
giving the food values in placement order, each food being placed by an
accepted draw of `get_random_food_position`. -/
def GenerateFoodsRel (func : TrigFunc) (correct_answer : String)
    (snake_positions : List (ℤ × ℤ)) (foods : List Food) : Prop :=
  ∃ ds : List String,
    ds.Nodup ∧
    (∀ d ∈ ds, d ∈ (possible_answers func).erase correct_answer) ∧
    ds.length = min 3 ((possible_answers func).erase correct_answer).card ∧
    (foods.map Food.value).Perm (ds ++ [correct_answer]) ∧
    placementOK snake_positions foods = true

/-- The squared pixel distance between the cell centers used by
`food_collision`: center of a cell `(x, y)` is
`(x*CELL_SIZE + CELL_SIZE/2, y*CELL_SIZE + TOP_MARGIN + CELL_SIZE/2)`
(both foods and the head get the same `TOP_MARGIN` offset).  The
Python float division `CELL_SIZE / 2 = 10.0` is exact because
`CELL_SIZE = 20` is even, so every center coordinate is an integer and
the squared distance is computed exactly in `ℤ`. -/
def centerDistSq (snake_cell food_cell : ℤ × ℤ) : ℤ :=
  let snake_x : ℤ := snake_cell.1 * CELL_SIZE + CELL_SIZE / 2
  let snake_y : ℤ := snake_cell.2 * CELL_SIZE + TOP_MARGIN + CELL_SIZE / 2
  let food_x : ℤ := food_cell.1 * CELL_SIZE + CELL_SIZE / 2
  let food_y : ℤ := food_cell.2 * CELL_SIZE + TOP_MARGIN + CELL_SIZE / 2
  (snake_x - food_x) ^ 2 + (snake_y - food_y) ^ 2

/-- Python `food_collision(snake_cell, food_cell)`: the source computes
`math.sqrt(dx*dx + dy*dy) < 30`; since both sides are nonnegative this
is exactly `dx^2 + dy^2 < 900`, which is the executable form used here
(the equivalence with the square-root form is proved in
`food_collision_iff_sqrt`). -/
def food_collision (snake_cell food_cell : ℤ × ℤ) : Bool :=
  decide (centerDistSq snake_cell food_cell < 900)

/-- The `for food in foods: if food_collision(new_head, food["pos"]): …
break` loop of `game_loop`: the first food, in list (= generation)
order, that collides with the new head. -/
def firstHit (new_head : ℤ × ℤ) (foods : List Food) : Option Food :=
  foods.find? fun food => food_collision new_head food.pos

/-- The mutable state of one `game_loop` round. -/
structure GameState where
  snake : List (ℤ × ℤ)
  direction : ℤ × ℤ
  lives : ℤ
  score : ℤ
  func : TrigFunc
  questionStr : String
  correctAnswer : String
  foods : List Food
  running : Bool
deriving Repr

/-- The fresh question and food set produced by the
`generate_question` / `generate_foods` calls in the correct-pickup
branch; the step function takes it as an oracle argument since both
calls are randomized. -/
structure Regen where
  func : TrigFunc
  questionStr : String
  correctAnswer : String
  foods : List Food
deriving Repr

/-- Python `new_head = (head_x + dx, head_y + dy)`. -/
def newHead (s : GameState) : ℤ × ℤ :=
  (s.snake.headI.1 + s.direction.1, s.snake.headI.2 + s.direction.2)

/-- The wall test of `game_loop`:
`new_head[0] < 0 or new_head[0] >= GRID_WIDTH or new_head[1] < 0 or
new_head[1] >= GRID_HEIGHT`. -/
def outOfBounds (p : ℤ × ℤ) : Bool :=
  p.1 < 0 || GRID_WIDTH ≤ p.1 || p.2 < 0 || GRID_HEIGHT ≤ p.2

/-- One movement step of `game_loop` (the part of the loop body after
event handling), given the regeneration oracle `gen` for the
correct-pickup branch:
wall check, self check (against the pre-move snake), head insertion,
first-hit food lookup, then the three-way pickup branch. -/
def moveStep (gen : Regen) (s : GameState) : GameState :=
  let nh := newHead s
  if outOfBounds nh then { s with running := false }
  else if nh ∈ s.snake then { s with running := false }
  else
    let snake1 := nh :: s.snake
    match firstHit nh s.foods with
    | some food_eaten =>
        if food_eaten.value = s.correctAnswer then
          { s with snake := snake1, score := s.score + 1,
                   func := gen.func, questionStr := gen.questionStr,
                   correctAnswer := gen.correctAnswer, foods := gen.foods }
        else
          { s with snake := snake1.dropLast, lives := s.lives - 1,
                   foods := s.foods.erase food_eaten,
                   running := if s.lives - 1 ≤ 0 then false else s.running }
    | none => { s with snake := snake1.dropLast }

/-- The four arrow keys of the `KEYDOWN` handler. -/
inductive Key where
  | up
  | down
  | left
  | right
deriving DecidableEq, Repr

/-- The direction a key requests. -/
def keyDir : Key → ℤ × ℤ
  | .up => (0, -1)
  | .down => (0, 1)
  | .left => (-1, 0)
  | .right => (1, 0)

/-- One `KEYDOWN` case of the event loop: the requested direction is
taken unless the current direction equals its exact reverse. -/
def applyKey (direction : ℤ × ℤ) : Key → ℤ × ℤ
  | .up => if direction ≠ (0, 1) then (0, -1) else direction
  | .down => if direction ≠ (0, -1) then (0, 1) else direction
  | .left => if direction ≠ (1, 0) then (-1, 0) else direction
  | .right => if direction ≠ (-1, 0) then (1, 0) else direction

/-- The whole `for event in pygame.event.get()` direction handling of one
tick: every buffered arrow-key event is applied in order, each one
reading the direction as already modified by the earlier events of the
same tick. -/
def processEvents (direction : ℤ × ℤ) (events : List Key) : ℤ × ℤ :=
  events.foldl applyKey direction

/-- Modelled from the spec: the standard sign table — sin negative in
quadrants 3 and 4, cos negative in quadrants 2 and 3, tan negative in
quadrants 2 and 4. -/
def negQuadrantSpec : TrigFunc → ℕ → Bool
  | .sin, q => q = 3 || q = 4
  | .cos, q => q = 2 || q = 3
  | .tan, q => q = 2 || q = 4

/-- Modelled from the spec: the signed answer — the unsigned magnitude
prefixed with `"-"` exactly in the negative quadrants, except that the
literal `"0"` stays `"0"` in all quadrants. -/
def adjustedAnswerSpec (func : TrigFunc) (value_str : String) (quadrant : ℕ) : String :=
  if value_str = "0" then "0"
  else if negQuadrantSpec func quadrant then "-" ++ value_str
  else value_str

/-- Modelled from the spec: the full-angle label — for base angle π/2 it
is π/2 in quadrants 1 and 2 and 3π/2 in quadrants 3 and 4; for the other
base angles with fraction `(1, den)` the numerator is 1, den−1, den+1,
2·den−1 by quadrant, rendered as `nπ/den` with the coefficient omitted
when `n = 1`. -/
def fullAngleLabelSpec (base_angle : BaseAngle) (quadrant : ℕ) : String :=
  if base_angle = .piDiv2 then
    if quadrant = 1 ∨ quadrant = 2 then "\\frac\x7b\\pi\x7d\x7b2\x7d"
    else "\\frac\x7b3\\pi\x7d\x7b2\x7d"
  else
    let den := (angle_fractions base_angle).2
    let n : ℕ :=
      if quadrant = 1 then 1
      else if quadrant = 2 then den - 1
      else if quadrant = 3 then den + 1
      else 2 * den - 1
    "\\frac\x7b" ++ (if n = 1 then "\\pi" else toString n ++ "\\pi") ++
      "\x7d\x7b" ++ toString den ++ "\x7d"

/-- C7: for every supported (function, base angle) pair and every
quadrant in 1–4, `get_adjusted_answer` applies the standard sign table —
prefixing `"-"` to the unsigned magnitude exactly in the function's
negative quadrants — except that the literal `"0"` (cos at π/2) is
returned unsigned in all four quadrants; in particular
`get_adjusted_answer sin (π/3) 4 = "-\frac{\sqrt{3}}{2}"`. -/
theorem adjusted_answer_sign_table :
    (∀ (func : TrigFunc) (base_angle : BaseAngle) (value_str : String) (quadrant : ℕ),
      quadrant ∈ ([1, 2, 3, 4] : List ℕ) →
      base_vals func base_angle = some value_str →
      get_adjusted_answer func base_angle quadrant =
        some (adjustedAnswerSpec func value_str quadrant)) ∧
    get_adjusted_answer .sin .piDiv3 4 =
      some "-\\frac\x7b\\sqrt\x7b3\x7d\x7d\x7b2\x7d" := by
  refine ⟨?_, by decide⟩
  intro func base_angle value_str quadrant hq hv
  have hq4 : quadrant = 1 ∨ quadrant = 2 ∨ quadrant = 3 ∨ quadrant = 4 := by
    simpa using hq
  cases func <;> cases base_angle <;>
    simp only [base_vals, Option.some.injEq, reduceCtorEq] at hv <;>
    (try subst hv) <;>
    rcases hq4 with rfl | rfl | rfl | rfl <;> decide

/-- Witness for C7: the sign table theorem applied at (cos, π/6,
quadrant 3). -/
theorem adjusted_answer_sign_table_witness :
    get_adjusted_answer .cos .piDiv6 3 =
      some (adjustedAnswerSpec .cos "\\frac\x7b\\sqrt\x7b3\x7d\x7d\x7b2\x7d" 3) :=
  adjusted_answer_sign_table.1 .cos .piDiv6 _ 3 (by decide) (by decide)

/-- C8: for every supported base angle and quadrant in 1–4,
`get_full_angle_latex` computes the label of the claim's table: π/2 for
quadrants 1–2 and 3π/2 for quadrants 3–4 at base angle π/2, otherwise
numerator 1, den−1, den+1, 2·den−1 by quadrant over the base angle's
denominator, with the coefficient omitted when the numerator is 1; in
particular `get_full_angle_latex (π/3) 3 = "\frac{4\pi}{3}"`. -/
theorem full_angle_label_table :
    (∀ (base_angle : BaseAngle) (quadrant : ℕ),
      quadrant ∈ ([1, 2, 3, 4] : List ℕ) →
      get_full_angle_latex base_angle quadrant =
        some (fullAngleLabelSpec base_angle quadrant)) ∧
    get_full_angle_latex .piDiv3 3 = some "\\frac\x7b4\\pi\x7d\x7b3\x7d" := by
  refine ⟨?_, by decide⟩
  intro base_angle quadrant hq
  have hq4 : quadrant = 1 ∨ quadrant = 2 ∨ quadrant = 3 ∨ quadrant = 4 := by
    simpa using hq
  cases base_angle <;> rcases hq4 with rfl | rfl | rfl | rfl <;> decide

/-- Witness for C8: the label theorem applied at (π/6, quadrant 4). -/
theorem full_angle_label_table_witness :
    get_full_angle_latex .piDiv6 4 = some (fullAngleLabelSpec .piDiv6 4) :=
  full_angle_label_table.1 .piDiv6 4 (by decide)

lemma choice_mem {α : Type} (l : List α) (d : α) (n : ℕ) (h : l ≠ []) :
    choice l d n ∈ l := by
  have hlen : 0 < l.length := List.length_pos.mpr h
  have hlt : n % l.length < l.length := Nat.mod_lt _ hlen
  unfold choice
  rw [List.getD_eq_getElem?_getD, List.getElem?_eq_getElem hlt]
  exact List.getElem_mem _

lemma effectiveFuncs_ne_nil (st : Settings) : effectiveFuncs st ≠ [] := by
  unfold effectiveFuncs
  split
  · simp
  · rename_i h
    rw [Bool.or_eq_true, not_or] at h
    simpa [List.isEmpty_iff] using h.1

lemma effectiveQuads_ne_nil (st : Settings) : effectiveQuads st ≠ [] := by
  unfold effectiveQuads
  split
  · simp
  · rename_i h
    rw [Bool.or_eq_true, not_or] at h
    simpa [List.isEmpty_iff] using h.2

lemma enabledQuads_subset (st : Settings) :
    ∀ q ∈ enabledQuads st, q ∈ ([1, 2, 3, 4] : List ℕ) := by
  intro q hq
  unfold enabledQuads at hq
  simp only [List.mem_append] at hq
  rcases hq with ((h | h) | h) | h <;> split at h <;>
    first
      | (simp only [List.mem_singleton] at h; subst h; decide)
      | exact absurd h (List.not_mem_nil q)

lemma effectiveQuads_subset (st : Settings) :
    ∀ q ∈ effectiveQuads st, q ∈ ([1, 2, 3, 4] : List ℕ) := by
  intro q hq
  unfold effectiveQuads at hq
  split at hq
  · simp only [List.mem_singleton] at hq
    subst hq
    decide
  · exact enabledQuads_subset st q hq

lemma valid_bases_ne_nil (func : TrigFunc) : valid_bases func ≠ [] := by
  cases func <;> decide

lemma base_vals_isSome_of_mem (func : TrigFunc) (base : BaseAngle)
    (h : base ∈ valid_bases func) : (base_vals func base).isSome := by
  revert h
  cases func <;> cases base <;> decide

lemma full_angle_isSome (base : BaseAngle) (quadrant : ℕ)
    (h : quadrant ∈ ([1, 2, 3, 4] : List ℕ)) :
    (get_full_angle_latex base quadrant).isSome := by
  have hq4 : quadrant = 1 ∨ quadrant = 2 ∨ quadrant = 3 ∨ quadrant = 4 := by
    simpa using h
  cases base <;> rcases hq4 with rfl | rfl | rfl | rfl <;> decide

lemma chosenQuad_mem_quadrants (st : Settings) (cq : ℕ) :
    chosenQuad st cq ∈ ([1, 2, 3, 4] : List ℕ) :=
  effectiveQuads_subset st _ (choice_mem _ _ _ (effectiveQuads_ne_nil st))

lemma generate_question_eq (st : Settings) (cf cb cq : ℕ) :
    ∃ angle_latex correct_answer,
      get_full_angle_latex (chosenBase st cf cb) (chosenQuad st cq) = some angle_latex ∧
      get_adjusted_answer (chosenFunc st cf) (chosenBase st cf cb) (chosenQuad st cq) =
        some correct_answer ∧
      generate_question st cf cb cq =
        some (chosenFunc st cf,
          (chosenFunc st cf).name ++ "(" ++ angle_latex ++ ")", correct_answer) := by
  have hbase : chosenBase st cf cb ∈ valid_bases (chosenFunc st cf) :=
    choice_mem _ _ _ (valid_bases_ne_nil _)
  have hangle := full_angle_isSome (chosenBase st cf cb) _ (chosenQuad_mem_quadrants st cq)
  have hvals := base_vals_isSome_of_mem _ _ hbase
  obtain ⟨angle_latex, hangle⟩ := Option.isSome_iff_exists.mp hangle
  obtain ⟨value_str, hvals⟩ := Option.isSome_iff_exists.mp hvals
  have hadj : (get_adjusted_answer (chosenFunc st cf) (chosenBase st cf cb)
      (chosenQuad st cq)).isSome := by
    unfold get_adjusted_answer
    rw [hvals]
    simp
  obtain ⟨correct_answer, hadj⟩ := Option.isSome_iff_exists.mp hadj
  refine ⟨angle_latex, correct_answer, hangle, hadj, ?_⟩
  simp only [generate_question, hangle, hadj, Option.some_bind]
  rfl

lemma effective_of_empty (st : Settings)
    (h : enabledFuncs st = [] ∨ enabledQuads st = []) :
    effectiveFuncs st = [TrigFunc.sin] ∧ effectiveQuads st = [1] := by
  have hcond : ((enabledFuncs st).isEmpty || (enabledQuads st).isEmpty) = true := by
    rcases h with h | h <;> simp [h]
  constructor <;> simp [effectiveFuncs, effectiveQuads, hcond]

lemma effective_of_nonempty (st : Settings)
    (hf : enabledFuncs st ≠ []) (hq : enabledQuads st ≠ []) :
    effectiveFuncs st = enabledFuncs st ∧ effectiveQuads st = enabledQuads st := by
  have hcond : ((enabledFuncs st).isEmpty || (enabledQuads st).isEmpty) = false := by
    simp only [Bool.or_eq_false_iff, List.isEmpty_eq_false]
    exact ⟨hf, hq⟩
  constructor <;> simp [effectiveFuncs, effectiveQuads, hcond]

/-- C9: for every settings value and every choice the randomness can
make, `generate_question` returns `some` question; with no function or
no quadrant enabled it falls back to function sin and quadrant 1, and in
general the question's function is one of the (effective) enabled
functions, its base angle one of that function's valid base angles, its
quadrant one of the (effective) enabled quadrants, its display string
`function(angleLabel)`, and its correct answer the signed adjusted value
of that (function, base angle, quadrant). -/
theorem generate_question_never_fails (st : Settings) (cf cb cq : ℕ) :
    ∃ func question_str correct_answer base quadrant,
      generate_question st cf cb cq = some (func, question_str, correct_answer) ∧
      func ∈ effectiveFuncs st ∧
      base ∈ valid_bases func ∧
      quadrant ∈ effectiveQuads st ∧
      ((enabledFuncs st = [] ∨ enabledQuads st = []) →
        func = TrigFunc.sin ∧ quadrant = 1) ∧
      (enabledFuncs st ≠ [] → enabledQuads st ≠ [] →
        func ∈ enabledFuncs st ∧ quadrant ∈ enabledQuads st) ∧
      (∃ angle_latex, get_full_angle_latex base quadrant = some angle_latex ∧
        question_str = func.name ++ "(" ++ angle_latex ++ ")") ∧
      get_adjusted_answer func base quadrant = some correct_answer := by
  obtain ⟨angle_latex, correct_answer, hangle, hadj, heq⟩ :=
    generate_question_eq st cf cb cq
  have hfunc : chosenFunc st cf ∈ effectiveFuncs st :=
    choice_mem _ _ _ (effectiveFuncs_ne_nil st)
  have hbase : chosenBase st cf cb ∈ valid_bases (chosenFunc st cf) :=
    choice_mem _ _ _ (valid_bases_ne_nil _)
  have hquad : chosenQuad st cq ∈ effectiveQuads st :=
    choice_mem _ _ _ (effectiveQuads_ne_nil st)
  refine ⟨chosenFunc st cf, _, correct_answer, chosenBase st cf cb, chosenQuad st cq,
    heq, hfunc, hbase, hquad, ?_, ?_, ⟨angle_latex, hangle, rfl⟩, hadj⟩
  · intro h
    obtain ⟨hf, hq⟩ := effective_of_empty st h
    rw [hf] at hfunc
    rw [hq] at hquad
    exact ⟨List.mem_singleton.mp hfunc, List.mem_singleton.mp hquad⟩
  · intro hf hq
    obtain ⟨hf', hq'⟩ := effective_of_nonempty st hf hq
    rw [hf'] at hfunc
    rw [hq'] at hquad
    exact ⟨hfunc, hquad⟩

/-- Witness for C9: the theorem applied to the all-disabled settings
(both fallbacks active). -/
theorem generate_question_never_fails_witness :
    ∃ func question_str correct_answer base quadrant,
      generate_question ⟨false, false, false, false, false, false, false⟩ 0 0 0 =
        some (func, question_str, correct_answer) ∧
      func ∈ effectiveFuncs ⟨false, false, false, false, false, false, false⟩ ∧
      base ∈ valid_bases func ∧
      quadrant ∈ effectiveQuads ⟨false, false, false, false, false, false, false⟩ ∧
      ((enabledFuncs ⟨false, false, false, false, false, false, false⟩ = [] ∨
          enabledQuads ⟨false, false, false, false, false, false, false⟩ = []) →
        func = TrigFunc.sin ∧ quadrant = 1) ∧
      (enabledFuncs ⟨false, false, false, false, false, false, false⟩ ≠ [] →
        enabledQuads ⟨false, false, false, false, false, false, false⟩ ≠ [] →
        func ∈ enabledFuncs ⟨false, false, false, false, false, false, false⟩ ∧
          quadrant ∈ enabledQuads ⟨false, false, false, false, false, false, false⟩) ∧
      (∃ angle_latex, get_full_angle_latex base quadrant = some angle_latex ∧
        question_str = func.name ++ "(" ++ angle_latex ++ ")") ∧
      get_adjusted_answer func base quadrant = some correct_answer :=
  generate_question_never_fails ⟨false, false, false, false, false, false, false⟩ 0 0 0

/-- C10: the base angle `generate_question` selects always comes from
the chosen function's own value table — in particular π/2 is never
selected for tan — so the `base_vals` lookup inside the answer
computation always succeeds and `generate_question` as a whole always
returns `some` (the `KeyError`/UnsupportedAngle branch is unreachable
under the selection logic). -/
theorem tan_piDiv2_unreachable (st : Settings) (cf cb cq : ℕ) :
    chosenBase st cf cb ∈ valid_bases (chosenFunc st cf) ∧
    (chosenFunc st cf = TrigFunc.tan → chosenBase st cf cb ≠ BaseAngle.piDiv2) ∧
    (base_vals (chosenFunc st cf) (chosenBase st cf cb)).isSome = true ∧
    (generate_question st cf cb cq).isSome = true := by
  have hbase : chosenBase st cf cb ∈ valid_bases (chosenFunc st cf) :=
    choice_mem _ _ _ (valid_bases_ne_nil _)
  refine ⟨hbase, ?_, base_vals_isSome_of_mem _ _ hbase, ?_⟩
  · intro htan heq
    rw [htan, heq] at hbase
    simp [valid_bases] at hbase
  · obtain ⟨angle_latex, correct_answer, _, _, heq⟩ := generate_question_eq st cf cb cq
    rw [heq]
    rfl

/-- Witness for C10: the theorem applied to tan-only settings. -/
theorem tan_piDiv2_unreachable_witness :
    chosenBase ⟨false, false, true, true, true, true, true⟩ 0 0 ∈
      valid_bases (chosenFunc ⟨false, false, true, true, true, true, true⟩ 0) ∧
    (chosenFunc ⟨false, false, true, true, true, true, true⟩ 0 = TrigFunc.tan →
      chosenBase ⟨false, false, true, true, true, true, true⟩ 0 0 ≠ BaseAngle.piDiv2) ∧
    (base_vals (chosenFunc ⟨false, false, true, true, true, true, true⟩ 0)
      (chosenBase ⟨false, false, true, true, true, true, true⟩ 0 0)).isSome = true ∧
    (generate_question ⟨false, false, true, true, true, true, true⟩ 0 0 0).isSome = true :=
  tan_piDiv2_unreachable ⟨false, false, true, true, true, true, true⟩ 0 0 0

lemma centerDistSq_nonneg (a b : ℤ × ℤ) : 0 ≤ centerDistSq a b := by
  unfold centerDistSq
  positivity

lemma food_collision_iff_sqrt (a b : ℤ × ℤ) :
    food_collision a b = true ↔
      Real.sqrt ((centerDistSq a b : ℤ) : ℝ) < 30 := by
  unfold food_collision
  rw [decide_eq_true_eq, Real.sqrt_lt' (by norm_num : (0:ℝ) < 30)]
  constructor
  · intro h
    calc ((centerDistSq a b : ℤ) : ℝ) < ((900 : ℤ) : ℝ) := by exact_mod_cast h
    _ = (30 : ℝ) ^ 2 := by norm_num
  · intro h
    have : ((centerDistSq a b : ℤ) : ℝ) < ((900 : ℤ) : ℝ) := by
      calc ((centerDistSq a b : ℤ) : ℝ) < (30 : ℝ) ^ 2 := h
      _ = ((900 : ℤ) : ℝ) := by norm_num
    exact_mod_cast this

lemma find?_eq_some_char {α : Type} (p : α → Bool) (l : List α) (a : α) :
    l.find? p = some a ↔
      ∃ l1 l2, l = l1 ++ a :: l2 ∧ p a = true ∧ ∀ x ∈ l1, p x = false := by
  induction l with
  | nil => simp
  | cons x xs ih =>
    by_cases hx : p x = true
    · rw [List.find?_cons_of_pos _ hx]
      constructor
      · intro h
        obtain rfl : x = a := by injection h
        exact ⟨[], xs, rfl, hx, by simp⟩
      · rintro ⟨l1, l2, heq, hpa, hneg⟩
        cases l1 with
        | nil =>
          obtain ⟨rfl, rfl⟩ : x = a ∧ xs = l2 := by
            constructor <;> injection heq
          rfl
        | cons y ys =>
          obtain ⟨rfl, -⟩ : x = y ∧ xs = ys ++ a :: l2 := by
            constructor <;> injection heq
          exact absurd hx (by simp [hneg x (List.mem_cons_self x ys)])
    · have hx' : p x = false := by simpa using hx
      rw [List.find?_cons_of_neg _ (by simp [hx'])]
      rw [ih]
      constructor
      · rintro ⟨l1, l2, rfl, hpa, hneg⟩
        exact ⟨x :: l1, l2, rfl, hpa, by
          intro z hz
          rcases List.mem_cons.mp hz with rfl | hz
          · exact hx'
          · exact hneg z hz⟩
      · rintro ⟨l1, l2, heq, hpa, hneg⟩
        cases l1 with
        | nil =>
          obtain ⟨rfl, -⟩ : x = a ∧ xs = l2 := by
            constructor <;> injection heq
          exact absurd hpa (by simp [hx'])
        | cons y ys =>
          obtain ⟨rfl, rfl⟩ : x = y ∧ xs = ys ++ a :: l2 := by
            constructor <;> injection heq
          exact ⟨ys, l2, rfl, hpa, fun z hz => hneg z (List.mem_cons_of_mem _ hz)⟩

/-- C1 (refutation of the threshold bound): there is no pickup threshold
that is strictly smaller than one full cell's diagonal (20·√2 pixels)
and reproduces `food_collision`: the cells (5,5) and (6,6) are exactly
one diagonal apart (squared center distance 800 = (20·√2)²), yet
`food_collision` reports a hit — the actual threshold is 30 > 20·√2. -/
theorem no_subdiagonal_pickup_threshold :
    ¬ ∃ T : ℝ, 0 < T ∧ T < 20 * Real.sqrt 2 ∧
      ∀ a b : ℤ × ℤ, food_collision a b = true ↔
        Real.sqrt ((centerDistSq a b : ℤ) : ℝ) < T := by
  rintro ⟨T, -, hTd, hiff⟩
  have h1 : food_collision (5, 5) (6, 6) = true := by decide
  have h2 := (hiff (5, 5) (6, 6)).mp h1
  have h800 : ((centerDistSq (5, 5) (6, 6) : ℤ) : ℝ) = 800 := by
    norm_num [centerDistSq, CELL_SIZE, TOP_MARGIN]
  rw [h800] at h2
  have hsq : Real.sqrt 800 = 20 * Real.sqrt 2 := by
    rw [show (800 : ℝ) = 20 ^ 2 * 2 by norm_num,
      Real.sqrt_mul (by positivity), Real.sqrt_sq (by norm_num)]
  rw [hsq] at h2
  linarith

/-- C1 (amended): a pickup occurs exactly for the first food (in
generation order) whose center-to-center Euclidean pixel distance to the
new head cell is under the fixed threshold 30, which is larger than zero
but strictly *larger* than one full cell's diagonal 20·√2 ≈ 28.28
(`firstHit` is the food-scan `moveStep` performs). -/
theorem pickup_first_food_under_threshold :
    ((0 : ℝ) < 30 ∧ 20 * Real.sqrt 2 < 30) ∧
    (∀ a b : ℤ × ℤ, food_collision a b = true ↔
      Real.sqrt ((centerDistSq a b : ℤ) : ℝ) < 30) ∧
    (∀ (new_head : ℤ × ℤ) (foods : List Food) (f : Food),
      firstHit new_head foods = some f ↔
        ∃ l1 l2, foods = l1 ++ f :: l2 ∧ food_collision new_head f.pos = true ∧
          ∀ g ∈ l1, food_collision new_head g.pos = false) := by
  refine ⟨⟨by norm_num, ?_⟩, food_collision_iff_sqrt, ?_⟩
  · have h2 : Real.sqrt 2 < 3 / 2 := (Real.sqrt_lt' (by norm_num)).mpr (by norm_num)
    linarith
  · intro new_head foods f
    exact find?_eq_some_char _ foods f

/-- Witness for C1 (amended): the first-food characterization applied to
a single food one diagonal away from the head. -/
theorem pickup_first_food_under_threshold_witness :
    firstHit (5, 5) [⟨(6, 6), "1"⟩] = some ⟨(6, 6), "1"⟩ :=
  (pickup_first_food_under_threshold.2.2 (5, 5) [⟨(6, 6), "1"⟩] ⟨(6, 6), "1"⟩).mpr
    ⟨[], [], rfl, by decide, by simp⟩

/-- C2 (refutation): two arrow-key events buffered in a single tick can
turn the direction into the exact reverse of the direction used for the
previous step — from direction (1,0), the event sequence [UP, LEFT] is
accepted event by event and yields (−1,0). -/
theorem direction_reversal_two_events :
    processEvents (1, 0) [Key.up, Key.left] = (-(1 : ℤ), -(0 : ℤ)) := by
  decide

/-- C2 (amended): each single 90°-turn request is accepted exactly when
the direction at the moment it is processed is not the exact reverse of
the requested direction; consequently, when at most one direction event
is processed between two steps, the new direction is never the exact
reverse of the previous step's (axis-aligned unit) direction.  (With two
or more buffered events a reversal is possible, see the refutation.) -/
theorem direction_nonreversing_single_event :
    (∀ (d : ℤ × ℤ) (k : Key),
      applyKey d k = keyDir k ↔ d ≠ (-(keyDir k).1, -(keyDir k).2)) ∧
    (∀ d : ℤ × ℤ, d ∈ ([(1, 0), (-1, 0), (0, 1), (0, -1)] : List (ℤ × ℤ)) →
      ∀ events : List Key, events.length ≤ 1 →
        processEvents d events ≠ (-d.1, -d.2)) := by
  constructor
  · intro d k
    cases k <;> simp only [applyKey, keyDir] <;> split_ifs with h <;>
      simp_all
  · intro d hd events hlen
    match events with
    | [] =>
      fin_cases hd <;> decide
    | [k] =>
      fin_cases hd <;> cases k <;> decide
    | _ :: _ :: _ => simp at hlen

/-- Witness for C2 (amended): a single UP event while moving right does
not reverse the direction. -/
theorem direction_nonreversing_single_event_witness :
    processEvents (1, 0) [Key.up] ≠ (-(1, 0).1, -(1, 0).2) :=
  direction_nonreversing_single_event.2 (1, 0) (by decide) [Key.up] (by decide)

/-- C3 (refutation): the placement routine enforces no 3-cell separation
from snake cells, only non-coincidence — the draw (3,3) is accepted and
returned although the snake cell (3,4) is at independent-axis
(Chebyshev) distance 1. -/
theorem food_position_next_to_snake :
    get_random_food_position [(3, 3)] [((3 : ℤ), (4 : ℤ))] [] = some (3, 3) ∧
    ¬(3 ≤ |(3 : ℤ) - 3| ∨ 3 ≤ |(3 : ℤ) - 4|) := by
  constructor
  · rfl
  · decide

/-- What the placement routine actually guarantees about an accepted
position: inside the 3-cell margins, not *coinciding* with any snake
cell, and at independent-axis distance ≥ 3 from every already-placed
food of the current batch. -/
def foodPosSpec (snake_positions : List (ℤ × ℤ)) (current_foods : List Food)
    (p : ℤ × ℤ) : Prop :=
  (foodMargin ≤ p.1 ∧ p.1 ≤ GRID_WIDTH - foodMargin - 1) ∧
  (foodMargin ≤ p.2 ∧ p.2 ≤ GRID_HEIGHT - foodMargin - 1) ∧
  p ∉ snake_positions ∧
  ∀ f ∈ current_foods, 3 ≤ |p.1 - f.pos.1| ∨ 3 ≤ |p.2 - f.pos.2|

lemma foodPosOK_iff (snake_positions : List (ℤ × ℤ)) (current_foods : List Food)
    (p : ℤ × ℤ) :
    foodPosOK snake_positions current_foods p = true ↔
      foodPosSpec snake_positions current_foods p := by
  unfold foodPosOK foodPosSpec
  simp only [Bool.and_eq_true, Bool.not_eq_true', decide_eq_true_eq,
    List.all_eq_true]
  constructor
  · rintro ⟨⟨⟨⟨h1, h2⟩, h3, h4⟩, h5⟩, h6⟩
    refine ⟨⟨h1, h2⟩, ⟨h3, h4⟩, by simpa using h5, ?_⟩
    intro f hf
    have h := h6 f hf
    simp only [Bool.and_eq_false_iff, decide_eq_false_iff_not, Nat.not_lt] at h
    rw [Int.abs_eq_natAbs, Int.abs_eq_natAbs]
    omega
  · rintro ⟨⟨h1, h2⟩, ⟨h3, h4⟩, h5, h6⟩
    refine ⟨⟨⟨⟨h1, h2⟩, h3, h4⟩, by simpa using h5⟩, ?_⟩
    intro f hf
    have h := h6 f hf
    rw [Int.abs_eq_natAbs, Int.abs_eq_natAbs] at h
    simp only [Bool.and_eq_false_iff, decide_eq_false_iff_not, Nat.not_lt]
    omega

/-- C3 (amended): every position returned by the placement routine lies
inside the margins, coincides with no snake cell (mere non-coincidence,
not 3-cell separation), and keeps the 3-cell independent-axis separation
from the already-placed foods of the current batch. -/
theorem food_position_spec (draws snake_positions : List (ℤ × ℤ))
    (current_foods : List Food) (p : ℤ × ℤ)
    (h : get_random_food_position draws snake_positions current_foods = some p) :
    foodPosSpec snake_positions current_foods p := by
  have := List.find?_some h
  exact (foodPosOK_iff _ _ _).mp this

/-- Witness for C3 (amended): the guarantee applied to an accepted
concrete draw. -/
theorem food_position_spec_witness :
    foodPosSpec [((16 : ℤ), (10 : ℤ))] [] (5, 9) :=
  food_position_spec [(5, 9)] [(16, 10)] [] (5, 9) rfl

/-- Two foods are at independent-axis (Chebyshev) distance at least 3. -/
def cheb3Apart (a b : Food) : Prop :=
  3 ≤ |a.pos.1 - b.pos.1| ∨ 3 ≤ |a.pos.2 - b.pos.2|

lemma cheb3Apart_symm {a b : Food} (h : cheb3Apart a b) : cheb3Apart b a := by
  unfold cheb3Apart at h ⊢
  rcases h with h | h
  · left
    rwa [abs_sub_comm]
  · right
    rwa [abs_sub_comm]

lemma placementOKAux_spec (snake_positions : List (ℤ × ℤ)) :
    ∀ (foods placed : List Food),
      placementOKAux snake_positions placed foods = true →
      (∀ f ∈ foods,
        (foodMargin ≤ f.pos.1 ∧ f.pos.1 ≤ GRID_WIDTH - foodMargin - 1) ∧
        (foodMargin ≤ f.pos.2 ∧ f.pos.2 ≤ GRID_HEIGHT - foodMargin - 1) ∧
        f.pos ∉ snake_positions ∧
        ∀ g ∈ placed, cheb3Apart f g) ∧
      List.Pairwise cheb3Apart foods := by
  intro foods
  induction foods with
  | nil =>
    intro placed _
    exact ⟨by simp, List.Pairwise.nil⟩
  | cons f rest ih =>
    intro placed h
    rw [placementOKAux, Bool.and_eq_true] at h
    obtain ⟨h1, h2⟩ := h
    obtain ⟨hb1, hb2, hmem, hsep⟩ := (foodPosOK_iff _ _ _).mp h1
    obtain ⟨ihall, ihpw⟩ := ih (placed ++ [f]) h2
    constructor
    · intro g hg
      rcases List.mem_cons.mp hg with rfl | hg
      · exact ⟨hb1, hb2, hmem, fun g' hg' => hsep g' hg'⟩
      · obtain ⟨c1, c2, c3, c4⟩ := ihall g hg
        exact ⟨c1, c2, c3, fun g' hg' => c4 g' (List.mem_append_left _ hg')⟩
    · rw [List.pairwise_cons]
      refine ⟨?_, ihpw⟩
      intro g hg
      have := (ihall g hg).2.2.2 f (by simp)
      exact cheb3Apart_symm this

/-- What C4 claims of a food batch: between 1 and 4 foods, exactly one
bearing the correct answer, pairwise-distinct values all drawn from the
function's signed-answer pool (correct answer removed) for the
distractors, coordinates inside the margins, pairwise 3-cell
independent-axis separation, and no food on a snake cell. -/
def foodsSpec (func : TrigFunc) (correct_answer : String)
    (snake_positions : List (ℤ × ℤ)) (foods : List Food) : Prop :=
  1 ≤ foods.length ∧ foods.length ≤ 4 ∧
  (foods.map Food.value).count correct_answer = 1 ∧
  (foods.map Food.value).Nodup ∧
  (∀ f ∈ foods, f.value ≠ correct_answer →
    f.value ∈ (possible_answers func).erase correct_answer) ∧
  (∀ f ∈ foods,
    (foodMargin ≤ f.pos.1 ∧ f.pos.1 ≤ GRID_WIDTH - foodMargin - 1) ∧
    (foodMargin ≤ f.pos.2 ∧ f.pos.2 ≤ GRID_HEIGHT - foodMargin - 1)) ∧
  List.Pairwise cheb3Apart foods ∧
  (∀ f ∈ foods, f.pos ∉ snake_positions)

/-- C4: every batch `generate_foods` can return — for any function,
correct-answer string and snake-cell set — contains between 1 and 4
foods, exactly one of which carries the correct answer; the values are
pairwise distinct, the wrong values come from the function's
signed-answer pool with the correct answer removed, every food is inside
the 3-cell margins (coordinates in `[3, dimension − 4]`), no two foods
are within the 3-cell independent-axis separation, and no food sits on a
snake cell. -/
theorem generate_foods_spec (func : TrigFunc) (correct_answer : String)
    (snake_positions : List (ℤ × ℤ)) (foods : List Food)
    (h : GenerateFoodsRel func correct_answer snake_positions foods) :
    foodsSpec func correct_answer snake_positions foods := by
  obtain ⟨ds, hnodup, hmem, hlen, hperm, hplace⟩ := h
  obtain ⟨hall, hpw⟩ := placementOKAux_spec snake_positions foods [] hplace
  have hcns : correct_answer ∉ ds := by
    intro hc
    exact (Finset.mem_erase.mp (hmem _ hc)).1 rfl
  have hflen : foods.length = ds.length + 1 := by
    have := hperm.length_eq
    simpa using this
  refine ⟨?_, ?_, ?_, ?_, ?_, ?_, hpw, ?_⟩
  · omega
  · have hds3 : ds.length ≤ 3 := hlen ▸ min_le_left _ _
    omega
  · rw [hperm.count_eq, List.count_append,
      List.count_eq_zero.mpr hcns]
    simp
  · refine hperm.nodup_iff.mpr ?_
    rw [List.nodup_append]
    refine ⟨hnodup, List.nodup_singleton _, ?_⟩
    intro a ha hb
    rw [List.mem_singleton] at hb
    subst hb
    exact hcns ha
  · intro f hf hne
    have : f.value ∈ foods.map Food.value := List.mem_map_of_mem _ hf
    rw [hperm.mem_iff] at this
    rcases List.mem_append.mp this with hin | hin
    · exact hmem _ hin
    · exact absurd (List.mem_singleton.mp hin) hne
  · intro f hf
    exact ⟨(hall f hf).1, (hall f hf).2.1⟩
  · intro f hf
    exact (hall f hf).2.2.1

/-- A concrete distractor draw for the witness batch. -/
def witDs : List String := ["\\frac\x7b1\x7d\x7b2\x7d", "-\\frac\x7b1\x7d\x7b2\x7d", "-1"]

/-- A concrete food batch `generate_foods` can produce for
(sin, correct answer "1", snake at (16,10)). -/
def witFoods : List Food :=
  [⟨(3, 3), "\\frac\x7b1\x7d\x7b2\x7d"⟩, ⟨(6, 3), "-\\frac\x7b1\x7d\x7b2\x7d"⟩,
   ⟨(9, 3), "-1"⟩, ⟨(12, 3), "1"⟩]

/-- Witness for C4: a concrete reachable batch satisfies the batch
relation, and the theorem applied to it yields the claimed batch
properties. -/
theorem generate_foods_spec_witness :
    GenerateFoodsRel .sin "1" [(16, 10)] witFoods ∧
    foodsSpec .sin "1" [(16, 10)] witFoods :=
  have hrel : GenerateFoodsRel .sin "1" [(16, 10)] witFoods :=
    ⟨witDs, by decide, by decide, by decide, List.Perm.refl _, by decide⟩
  ⟨hrel, generate_foods_spec .sin "1" [(16, 10)] witFoods hrel⟩

lemma moveStep_crash (gen : Regen) (s : GameState)
    (h : outOfBounds (newHead s) = true ∨ newHead s ∈ s.snake) :
    moveStep gen s = { s with running := false } := by
  rcases h with h | h
  · unfold moveStep
    simp [h]
  · unfold moveStep
    by_cases hb : outOfBounds (newHead s) = true <;> simp [hb, h]

lemma moveStep_correct (gen : Regen) (s : GameState) (f : Food)
    (hin : outOfBounds (newHead s) = false) (hself : newHead s ∉ s.snake)
    (hfind : firstHit (newHead s) s.foods = some f)
    (heq : f.value = s.correctAnswer) :
    moveStep gen s = { s with
      snake := newHead s :: s.snake,
      score := s.score + 1,
      func := gen.func,
      questionStr := gen.questionStr,
      correctAnswer := gen.correctAnswer,
      foods := gen.foods } := by
  unfold moveStep
  simp [hin, hself, hfind, heq]

lemma moveStep_wrong (gen : Regen) (s : GameState) (f : Food)
    (hin : outOfBounds (newHead s) = false) (hself : newHead s ∉ s.snake)
    (hfind : firstHit (newHead s) s.foods = some f)
    (hne : f.value ≠ s.correctAnswer) :
    moveStep gen s = { s with
      snake := (newHead s :: s.snake).dropLast,
      lives := s.lives - 1,
      foods := s.foods.erase f,
      running := if s.lives - 1 ≤ 0 then false else s.running } := by
  unfold moveStep
  simp [hin, hself, hfind, hne]

lemma moveStep_none (gen : Regen) (s : GameState)
    (hin : outOfBounds (newHead s) = false) (hself : newHead s ∉ s.snake)
    (hfind : firstHit (newHead s) s.foods = none) :
    moveStep gen s = { s with snake := (newHead s :: s.snake).dropLast } := by
  unfold moveStep
  simp [hin, hself, hfind]

/-- A step whose new head stays on the board and misses the body, and
whose first colliding food is a wrong answer. -/
def WrongStep (s : GameState) : Prop :=
  s.snake ≠ [] ∧ outOfBounds (newHead s) = false ∧ newHead s ∉ s.snake ∧
  ∃ f, firstHit (newHead s) s.foods = some f ∧ f.value ≠ s.correctAnswer

/-- The three per-branch frame conditions C5 states for one movement
step of a running, non-crashing state. -/
def stepCases (gen : Regen) (s : GameState) : Prop :=
  (∀ f, firstHit (newHead s) s.foods = some f → f.value = s.correctAnswer →
    (moveStep gen s).score = s.score + 1 ∧
    (moveStep gen s).func = gen.func ∧
    (moveStep gen s).questionStr = gen.questionStr ∧
    (moveStep gen s).correctAnswer = gen.correctAnswer ∧
    (moveStep gen s).foods = gen.foods ∧
    (moveStep gen s).snake = newHead s :: s.snake ∧
    (moveStep gen s).snake.length = s.snake.length + 1 ∧
    (moveStep gen s).lives = s.lives ∧
    (moveStep gen s).running = true) ∧
  (∀ f, firstHit (newHead s) s.foods = some f → f.value ≠ s.correctAnswer →
    (moveStep gen s).lives = s.lives - 1 ∧
    (moveStep gen s).foods = s.foods.erase f ∧
    (moveStep gen s).questionStr = s.questionStr ∧
    (moveStep gen s).correctAnswer = s.correctAnswer ∧
    (moveStep gen s).func = s.func ∧
    (moveStep gen s).score = s.score ∧
    (moveStep gen s).snake.length = s.snake.length ∧
    ((moveStep gen s).running = false ↔ s.lives - 1 ≤ 0)) ∧
  (firstHit (newHead s) s.foods = none →
    (moveStep gen s).snake = newHead s :: s.snake.dropLast ∧
    (moveStep gen s).snake.length = s.snake.length ∧
    (moveStep gen s).foods = s.foods ∧
    (moveStep gen s).lives = s.lives ∧
    (moveStep gen s).score = s.score ∧
    (moveStep gen s).questionStr = s.questionStr ∧
    (moveStep gen s).correctAnswer = s.correctAnswer ∧
    (moveStep gen s).running = true)

/-- C5's end-to-end scenario: from lives = 3 and score = 0, three
consecutive wrong pickups (no correct pickup in between) end the round
with the score still 0. -/
def threeWrongScenario : Prop :=
  ∀ (g1 g2 g3 : Regen) (s0 : GameState),
    s0.lives = 3 → s0.score = 0 → s0.running = true →
    WrongStep s0 → WrongStep (moveStep g1 s0) →
    WrongStep (moveStep g2 (moveStep g1 s0)) →
    (moveStep g3 (moveStep g2 (moveStep g1 s0))).running = false ∧
    (moveStep g3 (moveStep g2 (moveStep g1 s0))).score = 0

/-- C5: a running, non-crashing movement step changes the state by
exactly one of three cases — correct pickup: score +1, fresh question
and food set, tail kept (length +1), lives and running untouched; wrong
pickup: lives −1, only the eaten food removed, question/answer/score
kept, tail popped (length unchanged), the round ending exactly when the
decremented lives reach 0; no pickup: only the tail is popped (the snake
translates by one cell, everything else unchanged).  Moreover, from
lives = 3 and score = 0, three consecutive wrong pickups end the round
with score still 0. -/
theorem step_frame_effects (gen : Regen) (s : GameState)
    (hrun : s.running = true) (hsnake : s.snake ≠ [])
    (hin : outOfBounds (newHead s) = false) (hself : newHead s ∉ s.snake) :
    stepCases gen s ∧ threeWrongScenario := by
  constructor
  · refine ⟨?_, ?_, ?_⟩
    · intro f hfind heq
      rw [moveStep_correct gen s f hin hself hfind heq]
      exact ⟨rfl, rfl, rfl, rfl, rfl, rfl, by simp, rfl, hrun⟩
    · intro f hfind hne
      rw [moveStep_wrong gen s f hin hself hfind hne]
      refine ⟨rfl, rfl, rfl, rfl, rfl, rfl, ?_, ?_⟩
      · rw [List.length_dropLast, List.length_cons]
        simp
      · show (if s.lives - 1 ≤ 0 then false else s.running) = false ↔ s.lives - 1 ≤ 0
        split_ifs with h
        · simp [h]
        · simp [hrun, h]
    · intro hfind
      rw [moveStep_none gen s hin hself hfind]
      refine ⟨?_, ?_, rfl, rfl, rfl, rfl, rfl, hrun⟩
      · show (newHead s :: s.snake).dropLast = newHead s :: s.snake.dropLast
        exact List.dropLast_cons_of_ne_nil hsnake
      · rw [List.length_dropLast, List.length_cons]
        simp
  · intro g1 g2 g3 s0 hl hs _ h1 h2 h3
    obtain ⟨-, hin1, hself1, f1, hf1, hne1⟩ := h1
    obtain ⟨-, hin2, hself2, f2, hf2, hne2⟩ := h2
    obtain ⟨-, hin3, hself3, f3, hf3, hne3⟩ := h3
    have e1 := moveStep_wrong g1 s0 f1 hin1 hself1 hf1 hne1
    have hl1 : (moveStep g1 s0).lives = 2 := by
      rw [e1]
      show s0.lives - 1 = 2
      omega
    have hs1 : (moveStep g1 s0).score = 0 := by
      rw [e1]
      exact hs
    have e2 := moveStep_wrong g2 (moveStep g1 s0) f2 hin2 hself2 hf2 hne2
    have hl2 : (moveStep g2 (moveStep g1 s0)).lives = 1 := by
      rw [e2]
      show (moveStep g1 s0).lives - 1 = 1
      omega
    have hs2 : (moveStep g2 (moveStep g1 s0)).score = 0 := by
      rw [e2]
      exact hs1
    have e3 := moveStep_wrong g3 (moveStep g2 (moveStep g1 s0)) f3 hin3 hself3 hf3 hne3
    constructor
    · rw [e3]
      show (if (moveStep g2 (moveStep g1 s0)).lives - 1 ≤ 0 then false
            else (moveStep g2 (moveStep g1 s0)).running) = false
      rw [if_pos (by omega)]
    · rw [e3]
      exact hs2

/-- The regeneration oracle used by the concrete witnesses. -/
def gen0 : Regen := ⟨.sin, "", "", []⟩

/-- A concrete running state used by the concrete witnesses: the initial
snake of `game_loop` with no foods on the board. -/
def sWit : GameState :=
  ⟨[(16, 10)], (1, 0), 3, 0, .sin, "", "", [], true⟩

/-- Witness for C5: the step theorem applied to a concrete running
state. -/
theorem step_frame_effects_witness : stepCases gen0 sWit ∧ threeWrongScenario :=
  step_frame_effects gen0 sWit rfl (by decide) (by decide) (by decide)

/-- The snake of the spec's self-collision example: cells
[(5,5),(4,5),(4,6)] with a move that produces new head (4,6). -/
def exampleState : GameState :=
  ⟨[(5, 5), (4, 5), (4, 6)], (-1, 1), 3, 0, .sin, "", "", [], true⟩

/-- The conclusion of C6 for a running state: the step fails the round
with lives untouched (i.e. crashes, rather than losing a life) exactly
when the new head is off the board or coincides with a cell of the
pre-move body (tail included, since the tail is popped only later);
consequently a duplicate-free snake stays duplicate-free; and the spec's
concrete example [(5,5),(4,5),(4,6)] with new head (4,6) ends the
round. -/
def crashIffConcl (gen : Regen) (s : GameState) : Prop :=
  (((moveStep gen s).running = false ∧ (moveStep gen s).lives = s.lives) ↔
    (outOfBounds (newHead s) = true ∨ newHead s ∈ s.snake)) ∧
  (s.snake.Nodup → (moveStep gen s).snake.Nodup) ∧
  (moveStep gen exampleState).running = false

/-- C6: a movement step of a running state transitions to the terminal
crashed condition exactly when the new head lies outside the grid bounds
or coincides with any cell of the pre-move snake body (including the
not-yet-popped tail), evaluated before the head is committed; committed
states therefore keep all snake cells distinct, and the spec's example
snake [(5,5),(4,5),(4,6)] moving onto (4,6) ends the round. -/
theorem crash_exactly_on_wall_or_self (gen : Regen) (s : GameState)
    (hrun : s.running = true) (hsnake : s.snake ≠ []) :
    crashIffConcl gen s := by
  refine ⟨?_, ?_, ?_⟩
  · by_cases hb : outOfBounds (newHead s) = true
    · rw [moveStep_crash gen s (Or.inl hb)]
      simp [hb]
    · have hb' : outOfBounds (newHead s) = false := by
        simpa using hb
      by_cases hm : newHead s ∈ s.snake
      · rw [moveStep_crash gen s (Or.inr hm)]
        simp [hm]
      · have hrhs : ¬(outOfBounds (newHead s) = true ∨ newHead s ∈ s.snake) := by
          simp [hb', hm]
        rcases hfind : firstHit (newHead s) s.foods with _ | f
        · rw [moveStep_none gen s hb' hm hfind]
          constructor
          · rintro ⟨hc, -⟩
            exact absurd (hrun ▸ hc) (by simp)
          · intro hcontra
            exact absurd hcontra hrhs
        · by_cases hv : f.value = s.correctAnswer
          · rw [moveStep_correct gen s f hb' hm hfind hv]
            constructor
            · rintro ⟨hc, -⟩
              exact absurd (hrun ▸ hc) (by simp)
            · intro hcontra
              exact absurd hcontra hrhs
          · rw [moveStep_wrong gen s f hb' hm hfind hv]
            constructor
            · rintro ⟨-, hlv⟩
              have : s.lives - 1 = s.lives := hlv
              omega
            · intro hcontra
              exact absurd hcontra hrhs
  · intro hnd
    by_cases hb : outOfBounds (newHead s) = true
    · rw [moveStep_crash gen s (Or.inl hb)]
      exact hnd
    · have hb' : outOfBounds (newHead s) = false := by
        simpa using hb
      by_cases hm : newHead s ∈ s.snake
      · rw [moveStep_crash gen s (Or.inr hm)]
        exact hnd
      · have hcons : (newHead s :: s.snake).Nodup := List.nodup_cons.mpr ⟨hm, hnd⟩
        rcases hfind : firstHit (newHead s) s.foods with _ | f
        · rw [moveStep_none gen s hb' hm hfind]
          exact List.Nodup.sublist (List.dropLast_sublist _) hcons
        · by_cases hv : f.value = s.correctAnswer
          · rw [moveStep_correct gen s f hb' hm hfind hv]
            exact hcons
          · rw [moveStep_wrong gen s f hb' hm hfind hv]
            exact List.Nodup.sublist (List.dropLast_sublist _) hcons
  · rw [moveStep_crash gen exampleState (Or.inr (by decide))]

/-- Witness for C6: the crash characterization applied to the spec's
example state. -/
theorem crash_exactly_on_wall_or_self_witness : crashIffConcl gen0 exampleState :=
  crash_exactly_on_wall_or_self gen0 exampleState rfl (by decide)

end SnakeGame
